import Mathlib

/-!
Shallow embedding of the SecretChecker action (`src/main.ts`).

The program reads raw string inputs through a lookup function (`GetInput`),
parses and validates them into a `ParsedInputs` record (`parseInputs`),
evaluates the requested secret checks (`parseSecrets`) and interprets the
result against the `throwIfFail` / `throwIfSuccess` flags
(`handleCheckerOutput`).

Modelling decisions:
- JavaScript strings are Lean `String`s; the string methods the source uses
  (`split("\n")`, `trim()`, `toLowerCase()`, `includes(" ")`) are embedded as
  structurally recursive functions over the underlying character list, so
  that every definition evaluates by kernel reduction.
- `JSON.parse` and the `regex-parser` library are external libraries, not
  code of this repository: they enter the embedding as parameters
  (`jsonParse`, `regexParse`).  A compiled `RegExp` is abstracted by its
  `test` predicate `String → Bool`; `JSON.parse` yields a `Json` tree that
  the zod schema `z.record(z.string(), z.string())` then validates.
- A thrown `Error` is an `Except.error` carrying the exact message string;
  `console.log` / `console.warn` lines are pure side effects with no control
  flow and are not modelled.
- A JavaScript object access `secrets[key]` is an association-list lookup
  returning `Option String`; `parseSecrets` is written in the `Option` monad
  so that an access to an absent key would surface as `none` rather than
  being papered over by a default value.
-/

namespace SecretChecker

/-- A raw input lookup, as the action receives from `@actions/core.getInput`:
parameter name to raw string value, the empty string when unset.  The
`required` option is enforced upstream and ignored by the injected lookup in
the repository's own tests, so it is not modelled. -/
abbrev GetInput := String → String

/-- JS `s.split("\n")` on the underlying character list: segments between
occurrences of the newline character.  The result is never empty; the empty
string splits to `[[]]`. -/
def splitNlChars : List Char → List (List Char)
  | [] => [[]]
  | c :: rest =>
    if c = '\n' then [] :: splitNlChars rest
    else
      match splitNlChars rest with
      | [] => [[c]]
      | h :: t => (c :: h) :: t

/-- JS `s.split("\n")`. -/
def jsSplitNewline (s : String) : List String :=
  (splitNlChars s.data).map (fun cs => String.mk cs)

/-- JS `s.trim()`: strip whitespace characters from both ends (modelled for
the ASCII whitespace characters of `Char.isWhitespace`). -/
def jsTrim (s : String) : String :=
  String.mk (((s.data.dropWhile Char.isWhitespace).reverse.dropWhile
    Char.isWhitespace).reverse)

/-- JS `s.toLowerCase()` (modelled as per-character `Char.toLower`). -/
def jsToLower (s : String) : String :=
  String.mk (s.data.map Char.toLower)

/-- JS `s.includes(" ")`: the string contains a space character. -/
def jsIncludesSpace (s : String) : Bool :=
  s.data.any (fun c => c = ' ')

/-- A JSON value, as produced by `JSON.parse`. -/
inductive Json where
  | null
  | bool (b : Bool)
  | num (n : Int)
  | str (s : String)
  | arr (elements : List Json)
  | obj (fields : List (String × Json))

/-- The zod schema `z.record(z.string(), z.string())`: accepts a JSON object
all of whose values are strings, yielding the key/value pairs. -/
def secretsSchema : Json → Option (List (String × String))
  | Json.obj fields =>
    fields.mapM (fun kv =>
      match kv.2 with
      | Json.str v => some (kv.1, v)
      | _ => none)
  | _ => none

/-- `ParsedInputs` from `main.ts`.  `secrets` is the JS record as an ordered
association list; `pattern` is the compiled regex abstracted by its `test`
predicate. -/
structure ParsedInputs where
  secrets : List (String × String)
  check : List String
  allowEmpty : Bool
  pattern : Option (String → Bool)
  throwIfFail : Bool
  throwIfSuccess : Bool

/-- `SecretCheckerOutput` from `main.ts`: the aggregate result and the three
per-stage key/flag sequences. -/
structure SecretCheckerOutput where
  result : Bool
  keyExists : List (String × Bool)
  notEmpty : List (String × Bool)
  matchesPattern : List (String × Bool)
  deriving DecidableEq

/-- JS record access `secrets[key]`, as an association-list lookup. -/
def recordLookup (secrets : List (String × String)) (key : String) :
    Option String :=
  (secrets.find? (fun kv => kv.1 == key)).map (fun kv => kv.2)

/-- JS `key in secrets`. -/
def keyIn (key : String) (secrets : List (String × String)) : Bool :=
  (recordLookup secrets key).isSome

/-- The template literal of `getInputBoolean`'s error:
`` `Invalid input boolean value '${input}' for input key '${key}'. ...` ``. -/
def invalidBooleanMsg (input key : String) : String :=
  "Invalid input boolean value '" ++ input ++ "' for input key '" ++ key ++
    "'. Excepted: 'true' or 'false' (case insensitive)."

/-- `getInputBoolean` from `main.ts`: empty string yields the default,
case-insensitive `true` / `false` parse, anything else throws. -/
def getInputBoolean (getInput : GetInput) (key : String)
    (defaultValue : Bool) : Except String Bool :=
  let input := getInput key
  let lower := jsToLower input
  if lower = "" then Except.ok defaultValue
  else if lower = "true" then Except.ok true
  else if lower = "false" then Except.ok false
  else Except.error (invalidBooleanMsg input key)

/-- `parseSecretsInput` from `main.ts`: `JSON.parse` the raw `secrets` input,
then validate it against the record schema, each failure with its own exact
message.  `jsonParse` is the external `JSON.parse` (`none` models a throw). -/
def parseSecretsInput (jsonParse : String → Option Json)
    (getInput : GetInput) : Except String (List (String × String)) :=
  let secretsStr := getInput "secrets"
  match jsonParse secretsStr with
  | none => Except.error "Invalid JSON for input 'secrets'."
  | some secretsJson =>
    match secretsSchema secretsJson with
    | none => Except.error "Input 'secrets' does not fit schema: string -> string."
    | some secrets => Except.ok secrets

/-- The `pattern` step of `parseInputs`:
`pattern = patternStr ? regexParse(patternStr) : undefined`, where the empty
string is falsy in JS, wrapped in the try/catch that turns a library throw
into the exact message.  `regexParse` is the external `regex-parser`
library, abstracted to the compiled regex's `test` predicate (`none` models
a throw). -/
def parsePattern (regexParse : String → Option (String → Bool))
    (patternStr : String) : Except String (Option (String → Bool)) :=
  if patternStr = "" then Except.ok none
  else
    match regexParse patternStr with
    | none => Except.error "Invalid regex for input 'pattern'."
    | some p => Except.ok (some p)

/-- `parseInputs` from `main.ts`, in the source's exact order: parse
`secrets`; split/trim `check`; read `allowEmpty`; parse `pattern`; read
`throwIfFail` and `throwIfSuccess`; only then validate the `check` entries
(no empty entry, then no entry containing a space). -/
def parseInputs (jsonParse : String → Option Json)
    (regexParse : String → Option (String → Bool))
    (getInput : GetInput) : Except String ParsedInputs :=
  match parseSecretsInput jsonParse getInput with
  | Except.error e => Except.error e
  | Except.ok secrets =>
    let check := (jsSplitNewline (getInput "check")).map jsTrim
    match getInputBoolean getInput "allowEmpty" false with
    | Except.error e => Except.error e
    | Except.ok allowEmpty =>
      match parsePattern regexParse (getInput "pattern") with
      | Except.error e => Except.error e
      | Except.ok pattern =>
        match getInputBoolean getInput "throwIfFail" false with
        | Except.error e => Except.error e
        | Except.ok throwIfFail =>
          match getInputBoolean getInput "throwIfSuccess" false with
          | Except.error e => Except.error e
          | Except.ok throwIfSuccess =>
            if check.any (fun val => val == "") then
              Except.error "Input 'check' should not be empty, or contain empty lines."
            else if check.any (fun val => jsIncludesSpace val) then
              Except.error "Input 'check' should not contain spaces in lines. Secret keys do not contain spaces."
            else
              Except.ok {
                secrets := secrets,
                check := check,
                allowEmpty := allowEmpty,
                pattern := pattern,
                throwIfFail := throwIfFail,
                throwIfSuccess := throwIfSuccess }

/-- `parseSecrets` from `main.ts`: the staged filter pipeline.  Record
accesses are performed in the `Option` monad, so the definition itself
witnesses that every access hits an existing key (it would otherwise return
`none`). -/
def parseSecrets (inputs : ParsedInputs) : Option SecretCheckerOutput :=
  let keyExists := inputs.check.map (fun key => (key, keyIn key inputs.secrets))
  Option.bind
    ((keyExists.filter (fun p => p.2)).mapM (fun p =>
      Option.bind (recordLookup inputs.secrets p.1) (fun v =>
        some (p.1, inputs.allowEmpty || v != ""))))
    (fun notEmpty =>
      Option.bind
        ((notEmpty.filter (fun p => p.2)).mapM (fun p =>
          match inputs.pattern with
          | none => some (p.1, true)
          | some pat =>
            Option.bind (recordLookup inputs.secrets p.1) (fun v =>
              some (p.1, pat v))))
        (fun matchesPattern =>
          some {
            result := (matchesPattern.filter (fun p => p.2)).length ==
              inputs.check.length,
            keyExists := keyExists,
            notEmpty := notEmpty,
            matchesPattern := matchesPattern }))

/-- `handleCheckerOutput` from `main.ts`.  The `console.log` / `console.warn`
diagnostics have no control-flow effect and are not modelled; the function
either throws one of the two exact messages or returns `outputs.result`. -/
def handleCheckerOutput (inputs : ParsedInputs)
    (outputs : SecretCheckerOutput) : Except String Bool :=
  if outputs.result then
    if inputs.throwIfSuccess then
      Except.error "All secrets are set and have valid values."
    else Except.ok outputs.result
  else
    if inputs.throwIfFail then
      Except.error "Necessary secrets not set or do not have valid values. See above."
    else Except.ok outputs.result

/-! Specification-side vocabulary used to state the claims. -/

/-- The not-empty flag `parseSecrets` computes for an existing key:
`allowEmpty || secrets[key] !== ""`. -/
def notEmptyFlag (inputs : ParsedInputs) (key : String) : Bool :=
  inputs.allowEmpty || ((recordLookup inputs.secrets key).getD "" != "")

/-- The pattern flag `parseSecrets` computes for an existing, non-empty key:
`pattern === undefined || pattern.test(secrets[key])`. -/
def matchesFlag (inputs : ParsedInputs) (key : String) : Bool :=
  match inputs.pattern with
  | none => true
  | some pat => pat ((recordLookup inputs.secrets key).getD "")

/-- A `check` entry passes all three stages: its key is stored, the stored
value is non-empty or emptiness is allowed, and the pattern is absent or
tests positive against the stored value. -/
def entryPasses (inputs : ParsedInputs) (key : String) : Prop :=
  ∃ v, recordLookup inputs.secrets key = some v ∧
    (inputs.allowEmpty = true ∨ v ≠ "") ∧
    (inputs.pattern = none ∨ ∃ pat, inputs.pattern = some pat ∧ pat v = true)

/-! Concrete instantiations of the external collaborators and concrete
values, used to evaluate the functions on concrete inputs. -/

/-- A lookup built from an explicit table, absent keys giving `""`. -/
def mkLookup (entries : List (String × String)) : GetInput :=
  fun k => ((entries.find? (fun kv => kv.1 == k)).map (fun kv => kv.2)).getD ""

/-- A minimal `JSON.parse`: understands the source text `"{}"` (the empty
object) and rejects everything else. -/
def jsonParseStub : String → Option Json :=
  fun s => if s = "{}" then some (Json.obj []) else none

/-- A `regex-parser` stand-in that rejects every pattern text. -/
def regexParseStub : String → Option (String → Bool) :=
  fun _ => none

/-- A concrete `ParsedInputs` with one non-empty secret, one empty secret,
and a `check` entry absent from `secrets`. -/
def inputsEx : ParsedInputs :=
  { secrets := [("a", "x"), ("b", "")], check := ["a", "b", "c"],
    allowEmpty := false, pattern := none, throwIfFail := false,
    throwIfSuccess := false }

/-- The evaluator's output on `inputsEx`. -/
def outEx : SecretCheckerOutput :=
  { result := false, keyExists := [("a", true), ("b", true), ("c", false)],
    notEmpty := [("a", true), ("b", false)], matchesPattern := [("a", true)] }

/-- A concrete `ParsedInputs` with an empty `check` list. -/
def inputsEmptyEx : ParsedInputs :=
  { secrets := [("a", "x")], check := [], allowEmpty := false, pattern := none,
    throwIfFail := false, throwIfSuccess := false }

/-- A concrete `ParsedInputs` with `throwIfSuccess` set. -/
def inputsThrowSuccessEx : ParsedInputs :=
  { secrets := [], check := ["a"], allowEmpty := false, pattern := none,
    throwIfFail := false, throwIfSuccess := true }

/-- A concrete successful `SecretCheckerOutput`. -/
def outTrueEx : SecretCheckerOutput :=
  { result := true, keyExists := [("a", true)], notEmpty := [("a", true)],
    matchesPattern := [("a", true)] }

/-! Helper lemmas. -/

/-- Filtering a decorated list `(a, f a)` on its second component is
decorating the `f`-filtered list. -/
theorem filter_snd_map_pair {α : Type} (f : α → Bool) (l : List α) :
    ((l.map (fun a => (a, f a))).filter (fun p => p.2)) =
      (l.filter f).map (fun a => (a, f a)) := by
  induction l with
  | nil => rfl
  | cons a t ih =>
    by_cases h : f a = true
    · simp [List.filter_cons, h, ih]
    · simp [List.filter_cons, h, ih]

/-- `mapM` over a decorated list succeeds when the body succeeds pointwise,
producing the redecorated list. -/
theorem mapM_map_pair (F : String × Bool → Option (String × Bool))
    (g d : String → Bool) (l : List String)
    (h : ∀ k ∈ l, F (k, d k) = some (k, g k)) :
    (l.map (fun k => (k, d k))).mapM F = some (l.map (fun k => (k, g k))) := by
  induction l with
  | nil => rfl
  | cons a t ih =>
    rw [List.map_cons, List.mapM_cons, h a (List.mem_cons_self a t)]
    show (t.map (fun k => (k, d k))).mapM F >>= (fun bs => pure ((a, g a) :: bs)) =
      some ((a :: t).map (fun k => (k, g k)))
    rw [ih (fun k hk => h k (List.mem_cons_of_mem a hk))]
    rfl

/-- Master characterization of `parseSecrets`: it always succeeds, and the
four output fields are the staged filter pipeline over `check`. -/
theorem parseSecrets_eq (inputs : ParsedInputs) :
    parseSecrets inputs = some {
      result := (((inputs.check.filter (fun k => keyIn k inputs.secrets)).filter
          (fun k => notEmptyFlag inputs k)).filter
            (fun k => matchesFlag inputs k)).length == inputs.check.length,
      keyExists := inputs.check.map (fun k => (k, keyIn k inputs.secrets)),
      notEmpty := (inputs.check.filter (fun k => keyIn k inputs.secrets)).map
        (fun k => (k, notEmptyFlag inputs k)),
      matchesPattern := ((inputs.check.filter (fun k => keyIn k inputs.secrets)).filter
        (fun k => notEmptyFlag inputs k)).map
          (fun k => (k, matchesFlag inputs k)) } := by
  have h2 : ∀ k ∈ inputs.check.filter (fun k => keyIn k inputs.secrets),
      (fun (p : String × Bool) => Option.bind (recordLookup inputs.secrets p.1)
        (fun v => some (p.1, inputs.allowEmpty || v != "")))
        (k, keyIn k inputs.secrets) = some (k, notEmptyFlag inputs k) := by
    intro k hk
    have hkin : keyIn k inputs.secrets = true := (List.mem_filter.mp hk).2
    obtain ⟨v, hv⟩ := Option.isSome_iff_exists.mp hkin
    simp [hv, notEmptyFlag]
  have h3 : ∀ k ∈ (inputs.check.filter (fun k => keyIn k inputs.secrets)).filter
      (fun k => notEmptyFlag inputs k),
      (fun (p : String × Bool) =>
        match inputs.pattern with
        | none => some (p.1, true)
        | some pat => Option.bind (recordLookup inputs.secrets p.1)
            (fun v => some (p.1, pat v)))
        (k, notEmptyFlag inputs k) = some (k, matchesFlag inputs k) := by
    intro k hk
    have hkin : keyIn k inputs.secrets = true :=
      (List.mem_filter.mp (List.mem_filter.mp hk).1).2
    obtain ⟨v, hv⟩ := Option.isSome_iff_exists.mp hkin
    cases hp : inputs.pattern with
    | none => simp [hp, matchesFlag]
    | some pat => simp [hp, hv, matchesFlag]
  simp only [parseSecrets]
  rw [filter_snd_map_pair]
  rw [mapM_map_pair _ (fun k => notEmptyFlag inputs k) _ _ h2]
  simp only [Option.some_bind]
  rw [filter_snd_map_pair]
  rw [mapM_map_pair _ (fun k => matchesFlag inputs k) _ _ h3]
  simp only [Option.some_bind]
  rw [filter_snd_map_pair, List.length_map]

/-- The conjunction of the three stage flags is the `entryPasses`
predicate. -/
theorem passAll_iff (inputs : ParsedInputs) (k : String) :
    (matchesFlag inputs k && (notEmptyFlag inputs k && keyIn k inputs.secrets)) = true ↔
      entryPasses inputs k := by
  cases hv : recordLookup inputs.secrets k with
  | none => simp [keyIn, entryPasses, hv]
  | some v =>
    cases hp : inputs.pattern with
    | none =>
      simp [keyIn, entryPasses, notEmptyFlag, matchesFlag, hv, hp,
        Bool.or_eq_true, bne_iff_ne, and_comm]
    | some pat =>
      simp [keyIn, entryPasses, notEmptyFlag, matchesFlag, hv, hp,
        Bool.or_eq_true, bne_iff_ne, and_comm, and_assoc]

/-- Lowercasing preserves emptiness. -/
theorem jsToLower_eq_empty_iff (s : String) : jsToLower s = "" ↔ s = "" := by
  constructor
  · intro h
    have h2 : s.data.map Char.toLower = [] := congrArg String.data h
    have h3 : s.data = [] := List.map_eq_nil_iff.mp h2
    cases s with
    | mk data => cases h3; rfl
  · intro h
    subst h
    rfl

/-- `getInputBoolean` throws exactly when the raw value is non-empty and
lowers to neither boolean literal. -/
theorem getInputBoolean_err (g : GetInput) (key : String) (d : Bool)
    (h1 : g key ≠ "") (h2 : jsToLower (g key) ≠ "true")
    (h3 : jsToLower (g key) ≠ "false") :
    getInputBoolean g key d = Except.error (invalidBooleanMsg (g key) key) := by
  have h0 : jsToLower (g key) ≠ "" := fun hl =>
    h1 ((jsToLower_eq_empty_iff (g key)).mp hl)
  simp [getInputBoolean, h0, h2, h3]

/-- When `secrets` parses and the `allowEmpty` read throws, `parseInputs`
propagates that error (the `check` validations come later). -/
theorem parseInputs_allowEmpty_error (jsonParse : String → Option Json)
    (regexParse : String → Option (String → Bool)) (g : GetInput)
    (m : List (String × String)) (e : String)
    (hsec : parseSecretsInput jsonParse g = Except.ok m)
    (hbool : getInputBoolean g "allowEmpty" false = Except.error e) :
    parseInputs jsonParse regexParse g = Except.error e := by
  simp [parseInputs, hsec, hbool]

/-- Lowercasing fixes whitespace characters. -/
theorem whitespace_toLower (c : Char) (h : c.isWhitespace = true) :
    c.toLower = c := by
  simp [Char.isWhitespace] at h
  rcases h with ((h | h) | h) | h <;> subst h <;> decide

/-- Lowercasing fixes all-whitespace character lists. -/
theorem ws_map_toLower (l : List Char) (h : ∀ c ∈ l, c.isWhitespace = true) :
    l.map Char.toLower = l := by
  induction l with
  | nil => rfl
  | cons c t ih =>
    rw [List.map_cons, whitespace_toLower c (h c (List.mem_cons_self c t)),
      ih (fun x hx => h x (List.mem_cons_of_mem c hx))]

/-- Padding strings that concatenate to a non-empty string are not both
empty. -/
theorem pad_nonempty (w₁ w₂ : String) (hne : w₁ ++ w₂ ≠ "") :
    ¬(w₁.data = [] ∧ w₂.data = []) := by
  intro hp
  apply hne
  have e₁ : w₁ = "" := by
    cases w₁ with
    | mk d => cases hp.1; rfl
  have e₂ : w₂ = "" := by
    cases w₂ with
    | mk d => cases hp.2; rfl
  rw [e₁, e₂]
  rfl

/-- `"true"` with non-trivial whitespace padding lowers to neither the empty
string nor a boolean literal. -/
theorem padded_true_not_bool (w₁ w₂ : String)
    (hw₁ : ∀ c ∈ w₁.data, c.isWhitespace = true)
    (hw₂ : ∀ c ∈ w₂.data, c.isWhitespace = true)
    (hne : w₁ ++ w₂ ≠ "") :
    (w₁ ++ ("true" ++ w₂) ≠ "") ∧
    jsToLower (w₁ ++ ("true" ++ w₂)) ≠ "true" ∧
    jsToLower (w₁ ++ ("true" ++ w₂)) ≠ "false" := by
  have hpad := pad_nonempty w₁ w₂ hne
  have hlow : (jsToLower (w₁ ++ ("true" ++ w₂))).data =
      w₁.data ++ (['t', 'r', 'u', 'e'] ++ w₂.data) := by
    show ((w₁ ++ ("true" ++ w₂)).data).map Char.toLower = _
    rw [String.data_append, String.data_append, List.map_append, List.map_append,
      ws_map_toLower w₁.data hw₁, ws_map_toLower w₂.data hw₂]
    rfl
  refine ⟨?_, ?_, ?_⟩
  · intro h
    have h2 := congrArg String.data h
    rw [String.data_append, String.data_append,
      (show ("true" : String).data = ['t', 'r', 'u', 'e'] from rfl),
      (show ("" : String).data = [] from rfl)] at h2
    simp at h2
  · intro h
    have h2 := congrArg String.data h
    rw [hlow, (show ("true" : String).data = ['t', 'r', 'u', 'e'] from rfl)] at h2
    have hlen := congrArg List.length h2
    rw [List.length_append, List.length_append] at hlen
    simp only [List.length_cons, List.length_nil] at hlen
    exact hpad ⟨List.eq_nil_of_length_eq_zero (by omega),
      List.eq_nil_of_length_eq_zero (by omega)⟩
  · intro h
    have h2 := congrArg String.data h
    rw [hlow, (show ("false" : String).data = ['f', 'a', 'l', 's', 'e'] from rfl)] at h2
    cases hw : w₁.data with
    | nil =>
      rw [hw] at h2
      simp at h2
    | cons c t =>
      rw [hw] at h2
      simp at h2
      have hc : c.isWhitespace = true := hw₁ c (by rw [hw]; exact List.mem_cons_self c t)
      rw [h2.1] at hc
      exact absurd hc (by decide)

/-- `"false"` with non-trivial whitespace padding lowers to neither the
empty string nor a boolean literal. -/
theorem padded_false_not_bool (w₁ w₂ : String)
    (hw₁ : ∀ c ∈ w₁.data, c.isWhitespace = true)
    (hw₂ : ∀ c ∈ w₂.data, c.isWhitespace = true)
    (hne : w₁ ++ w₂ ≠ "") :
    (w₁ ++ ("false" ++ w₂) ≠ "") ∧
    jsToLower (w₁ ++ ("false" ++ w₂)) ≠ "true" ∧
    jsToLower (w₁ ++ ("false" ++ w₂)) ≠ "false" := by
  have hpad := pad_nonempty w₁ w₂ hne
  have hlow : (jsToLower (w₁ ++ ("false" ++ w₂))).data =
      w₁.data ++ (['f', 'a', 'l', 's', 'e'] ++ w₂.data) := by
    show ((w₁ ++ ("false" ++ w₂)).data).map Char.toLower = _
    rw [String.data_append, String.data_append, List.map_append, List.map_append,
      ws_map_toLower w₁.data hw₁, ws_map_toLower w₂.data hw₂]
    rfl
  refine ⟨?_, ?_, ?_⟩
  · intro h
    have h2 := congrArg String.data h
    rw [String.data_append, String.data_append,
      (show ("false" : String).data = ['f', 'a', 'l', 's', 'e'] from rfl),
      (show ("" : String).data = [] from rfl)] at h2
    simp at h2
  · intro h
    have h2 := congrArg String.data h
    rw [hlow, (show ("true" : String).data = ['t', 'r', 'u', 'e'] from rfl)] at h2
    have hlen := congrArg List.length h2
    rw [List.length_append, List.length_append] at hlen
    simp only [List.length_cons, List.length_nil] at hlen
    omega
  · intro h
    have h2 := congrArg String.data h
    rw [hlow, (show ("false" : String).data = ['f', 'a', 'l', 's', 'e'] from rfl)] at h2
    have hlen := congrArg List.length h2
    rw [List.length_append, List.length_append] at hlen
    simp only [List.length_cons, List.length_nil] at hlen
    exact hpad ⟨List.eq_nil_of_length_eq_zero (by omega),
      List.eq_nil_of_length_eq_zero (by omega)⟩

end SecretChecker

namespace SecretChecker

/-! Claim theorems. -/

/-- Claim C1 (corrected): `parseInputs` does NOT validate the `check`
entries before reading `allowEmpty`; it reads `allowEmpty`, `pattern`,
`throwIfFail` and `throwIfSuccess` first and only then validates `check`.
Hence for every lookup whose `secrets` input parses, whose `check` value
contains an entry that trims to the empty string, and whose `allowEmpty`
value is a non-boolean literal, `parseInputs` fails with the
invalid-boolean message for `allowEmpty`, not with the empty-lines
message. -/
theorem parseInputs_invalid_allowEmpty_wins (jsonParse : String → Option Json)
    (regexParse : String → Option (String → Bool)) (g : GetInput)
    (m : List (String × String))
    (hsec : parseSecretsInput jsonParse g = Except.ok m)
    (_hempty : ((jsSplitNewline (g "check")).map jsTrim).any
      (fun v => v == "") = true)
    (h1 : g "allowEmpty" ≠ "") (h2 : jsToLower (g "allowEmpty") ≠ "true")
    (h3 : jsToLower (g "allowEmpty") ≠ "false") :
    parseInputs jsonParse regexParse g =
      Except.error (invalidBooleanMsg (g "allowEmpty") "allowEmpty") :=
  parseInputs_allowEmpty_error jsonParse regexParse g m _ hsec
    (getInputBoolean_err g "allowEmpty" false h1 h2 h3)

/-- Claim C1, counterexample: on the concrete lookup with `secrets = "{}"`,
`check = ""` (whose single trimmed entry is empty) and `allowEmpty = "5"`,
`parseInputs` fails with the invalid-boolean message and not, as the claim
states, with the empty-lines message. -/
theorem parseInputs_order_counterexample :
    parseInputs jsonParseStub regexParseStub
        (mkLookup [("secrets", "{}"), ("check", ""), ("allowEmpty", "5")]) =
      Except.error "Invalid input boolean value '5' for input key 'allowEmpty'. Excepted: 'true' or 'false' (case insensitive)." ∧
    ((jsSplitNewline (mkLookup [("secrets", "{}"), ("check", ""), ("allowEmpty", "5")]
        "check")).map jsTrim).any (fun v => v == "") = true ∧
    parseInputs jsonParseStub regexParseStub
        (mkLookup [("secrets", "{}"), ("check", ""), ("allowEmpty", "5")]) ≠
      Except.error "Input 'check' should not be empty, or contain empty lines." := by
  refine ⟨rfl, by decide, ?_⟩
  intro h
  rw [(rfl : parseInputs jsonParseStub regexParseStub
      (mkLookup [("secrets", "{}"), ("check", ""), ("allowEmpty", "5")]) =
    Except.error "Invalid input boolean value '5' for input key 'allowEmpty'. Excepted: 'true' or 'false' (case insensitive).")] at h
  injection h with h
  exact absurd h (by decide)

/-- Claim C1, witness: the amended claim evaluated on the counterexample's
lookup shape (empty first `check` line, `allowEmpty = "5"`). -/
theorem parseInputs_invalid_allowEmpty_wins_witness :
    parseInputs jsonParseStub regexParseStub
        (mkLookup [("secrets", "{}"), ("check", "\nA"), ("allowEmpty", "5")]) =
      Except.error "Invalid input boolean value '5' for input key 'allowEmpty'. Excepted: 'true' or 'false' (case insensitive)." :=
  parseInputs_invalid_allowEmpty_wins jsonParseStub regexParseStub
    (mkLookup [("secrets", "{}"), ("check", "\nA"), ("allowEmpty", "5")]) [] rfl
    (by decide) (by decide) (by decide) (by decide)

/-- Claim C2: `parseSecrets`'s `result` field is true if and only if every
entry of `check` exists in `secrets` with a value that is non-empty (or
emptiness is allowed) and matches the pattern (or no pattern is set);
equivalently, the number of check entries surviving all three stages equals
the length of `check`. -/
theorem parseSecrets_result_iff (inputs : ParsedInputs) (out : SecretCheckerOutput)
    (h : parseSecrets inputs = some out) :
    (out.result = true ↔ ∀ key ∈ inputs.check, entryPasses inputs key) ∧
    (out.result = true ↔
      (out.matchesPattern.filter (fun p => p.2)).length = inputs.check.length) := by
  rw [parseSecrets_eq inputs] at h
  injection h with h
  subst h
  constructor
  · simp only [List.filter_filter, beq_iff_eq]
    rw [List.filter_length_eq_length]
    constructor
    · intro hall key hkey
      exact (passAll_iff inputs key).mp (hall key hkey)
    · intro hall key hkey
      exact (passAll_iff inputs key).mpr (hall key hkey)
  · simp only [filter_snd_map_pair, List.length_map, beq_iff_eq]

/-- Claim C2, witness: the characterization evaluated on a concrete
`ParsedInputs` whose empty secret makes the result false. -/
theorem parseSecrets_result_iff_witness :
    (outEx.result = true ↔ ∀ key ∈ inputsEx.check, entryPasses inputsEx key) ∧
    (outEx.result = true ↔
      (outEx.matchesPattern.filter (fun p => p.2)).length = inputsEx.check.length) :=
  parseSecrets_result_iff inputsEx outEx rfl

/-- Claim C3: `handleCheckerOutput` throws "All secrets are set and have
valid values." exactly on success with `throwIfSuccess`, throws "Necessary
secrets not set or do not have valid values. See above." exactly on failure
with `throwIfFail`, and otherwise returns `outputs.result`. -/
theorem handleCheckerOutput_spec (inputs : ParsedInputs)
    (outputs : SecretCheckerOutput) :
    (handleCheckerOutput inputs outputs =
        Except.error "All secrets are set and have valid values." ↔
      outputs.result = true ∧ inputs.throwIfSuccess = true) ∧
    (handleCheckerOutput inputs outputs =
        Except.error "Necessary secrets not set or do not have valid values. See above." ↔
      outputs.result = false ∧ inputs.throwIfFail = true) ∧
    (¬(outputs.result = true ∧ inputs.throwIfSuccess = true) →
      ¬(outputs.result = false ∧ inputs.throwIfFail = true) →
      handleCheckerOutput inputs outputs = Except.ok outputs.result) := by
  cases hr : outputs.result <;> cases hs : inputs.throwIfSuccess <;>
    cases hf : inputs.throwIfFail <;>
      simp [handleCheckerOutput, hr, hs, hf]

/-- Claim C3, witness: a non-throwing failure returns `false`, and a success
under `throwIfSuccess` throws the exact success message. -/
theorem handleCheckerOutput_spec_witness :
    handleCheckerOutput inputsEx outEx = Except.ok false ∧
    handleCheckerOutput inputsThrowSuccessEx outTrueEx =
      Except.error "All secrets are set and have valid values." :=
  ⟨(handleCheckerOutput_spec inputsEx outEx).2.2 (by decide) (by decide),
   (handleCheckerOutput_spec inputsThrowSuccessEx outTrueEx).1.mpr (by decide)⟩

/-- Claim C4: `parseSecrets` is a staged narrowing of `check` preserving its
order: `keyExists` pairs each `check` entry, in order, with membership in
`secrets`; `notEmpty` lists exactly the keys whose `keyExists` flag is true,
in the same relative order; `matchesPattern` lists exactly the keys whose
`notEmpty` flag is true, in the same relative order. -/
theorem parseSecrets_staged (inputs : ParsedInputs) (out : SecretCheckerOutput)
    (h : parseSecrets inputs = some out) :
    out.keyExists = inputs.check.map (fun k => (k, keyIn k inputs.secrets)) ∧
    out.notEmpty.map (fun p => p.1) =
      (out.keyExists.filter (fun p => p.2)).map (fun p => p.1) ∧
    out.matchesPattern.map (fun p => p.1) =
      (out.notEmpty.filter (fun p => p.2)).map (fun p => p.1) := by
  rw [parseSecrets_eq inputs] at h
  injection h with h
  subst h
  refine ⟨rfl, ?_, ?_⟩
  · simp [filter_snd_map_pair, List.map_map, Function.comp]
  · simp [filter_snd_map_pair, List.map_map, Function.comp]

/-- Claim C4, witness: the staged-narrowing shape evaluated on a concrete
`ParsedInputs`. -/
theorem parseSecrets_staged_witness :
    outEx.keyExists = inputsEx.check.map (fun k => (k, keyIn k inputsEx.secrets)) ∧
    outEx.notEmpty.map (fun p => p.1) =
      (outEx.keyExists.filter (fun p => p.2)).map (fun p => p.1) ∧
    outEx.matchesPattern.map (fun p => p.1) =
      (outEx.notEmpty.filter (fun p => p.2)).map (fun p => p.1) :=
  parseSecrets_staged inputsEx outEx rfl

/-- Claim C5: `getInputBoolean` returns the default on the empty raw
string, parses case-insensitive `true` / `false`, and fails on every other
non-empty raw string with exactly the invalid-boolean message with the raw
value and key interpolated. -/
theorem getInputBoolean_spec (g : GetInput) (key : String) (d : Bool) :
    (g key = "" → getInputBoolean g key d = Except.ok d) ∧
    (jsToLower (g key) = "true" → getInputBoolean g key d = Except.ok true) ∧
    (jsToLower (g key) = "false" → getInputBoolean g key d = Except.ok false) ∧
    (g key ≠ "" → jsToLower (g key) ≠ "true" → jsToLower (g key) ≠ "false" →
      getInputBoolean g key d = Except.error (invalidBooleanMsg (g key) key)) := by
  refine ⟨?_, ?_, ?_, getInputBoolean_err g key d⟩
  · intro h
    simp [getInputBoolean, h, jsToLower]
  · intro h
    simp [getInputBoolean, h]
  · intro h
    simp [getInputBoolean, h]

/-- Claim C5, witness: all four cases evaluated concretely, with the error
message spelled out literally. -/
theorem getInputBoolean_spec_witness :
    getInputBoolean (mkLookup []) "key1" true = Except.ok true ∧
    getInputBoolean (mkLookup [("key1", "TrUe")]) "key1" false = Except.ok true ∧
    getInputBoolean (mkLookup [("key1", "FaLsE")]) "key1" false = Except.ok false ∧
    getInputBoolean (mkLookup [("key1", "5")]) "key1" false =
      Except.error "Invalid input boolean value '5' for input key 'key1'. Excepted: 'true' or 'false' (case insensitive)." :=
  ⟨(getInputBoolean_spec (mkLookup []) "key1" true).1 rfl,
   (getInputBoolean_spec (mkLookup [("key1", "TrUe")]) "key1" false).2.1 (by decide),
   (getInputBoolean_spec (mkLookup [("key1", "FaLsE")]) "key1" false).2.2.1 (by decide),
   (getInputBoolean_spec (mkLookup [("key1", "5")]) "key1" false).2.2.2
     (by decide) (by decide) (by decide)⟩

/-- Claim C6: `check` is the raw input split on newline with each entry
trimmed; when the other inputs read successfully, an empty trimmed entry
yields exactly the empty-lines error, and otherwise an entry containing a
space yields exactly the spaces error. -/
theorem parseInputs_check_errors (jsonParse : String → Option Json)
    (regexParse : String → Option (String → Bool)) (g : GetInput)
    (m : List (String × String))
    (hsec : parseSecretsInput jsonParse g = Except.ok m)
    (hae : ∃ b, getInputBoolean g "allowEmpty" false = Except.ok b)
    (hpat : ∃ po, parsePattern regexParse (g "pattern") = Except.ok po)
    (htf : ∃ b, getInputBoolean g "throwIfFail" false = Except.ok b)
    (hts : ∃ b, getInputBoolean g "throwIfSuccess" false = Except.ok b) :
    (((jsSplitNewline (g "check")).map jsTrim).any (fun v => v == "") = true →
      parseInputs jsonParse regexParse g =
        Except.error "Input 'check' should not be empty, or contain empty lines.") ∧
    (((jsSplitNewline (g "check")).map jsTrim).any (fun v => v == "") = false →
      ((jsSplitNewline (g "check")).map jsTrim).any (fun v => jsIncludesSpace v) = true →
      parseInputs jsonParse regexParse g =
        Except.error "Input 'check' should not contain spaces in lines. Secret keys do not contain spaces.") := by
  obtain ⟨ae, hae⟩ := hae
  obtain ⟨po, hpat⟩ := hpat
  obtain ⟨tf, htf⟩ := htf
  obtain ⟨ts, hts⟩ := hts
  constructor
  · intro he
    simp [parseInputs, hsec, hae, hpat, htf, hts, he]
  · intro he hs
    simp [parseInputs, hsec, hae, hpat, htf, hts, he, hs]

/-- Claim C6, witness: a wholly empty raw `check` raises the empty-lines
error, and the entry `"SECRET 1"` raises the spaces error. -/
theorem parseInputs_check_errors_witness :
    parseInputs jsonParseStub regexParseStub (mkLookup [("secrets", "{}")]) =
      Except.error "Input 'check' should not be empty, or contain empty lines." ∧
    parseInputs jsonParseStub regexParseStub
        (mkLookup [("secrets", "{}"), ("check", "SECRET 1\nSECRET_2")]) =
      Except.error "Input 'check' should not contain spaces in lines. Secret keys do not contain spaces." :=
  ⟨(parseInputs_check_errors jsonParseStub regexParseStub
      (mkLookup [("secrets", "{}")]) []
      rfl ⟨false, rfl⟩ ⟨none, rfl⟩ ⟨false, rfl⟩ ⟨false, rfl⟩).1 (by decide),
   (parseInputs_check_errors jsonParseStub regexParseStub
      (mkLookup [("secrets", "{}"), ("check", "SECRET 1\nSECRET_2")]) []
      rfl ⟨false, rfl⟩ ⟨none, rfl⟩ ⟨false, rfl⟩ ⟨false, rfl⟩).2 (by decide) (by decide)⟩

/-- Claim C7: `parseSecrets` is total and never fails: every record access
in the staged pipeline hits an existing key, so the `Option`-monad embedding
always returns a complete `SecretCheckerOutput`. -/
theorem parseSecrets_total (inputs : ParsedInputs) :
    (parseSecrets inputs).isSome = true := by
  rw [parseSecrets_eq inputs]
  rfl

/-- Claim C8: `parseInputs` is deterministic in its input lookup: two
lookups answering identically on every key yield structurally identical
results (the same error or the same `ParsedInputs`). -/
theorem parseInputs_deterministic (jsonParse : String → Option Json)
    (regexParse : String → Option (String → Bool)) (g₁ g₂ : GetInput)
    (h : ∀ k, g₁ k = g₂ k) :
    parseInputs jsonParse regexParse g₁ = parseInputs jsonParse regexParse g₂ := by
  have hg : g₁ = g₂ := funext h
  rw [hg]

/-- Claim C8, witness: determinism evaluated on a concrete lookup. -/
theorem parseInputs_deterministic_witness :
    parseInputs jsonParseStub regexParseStub
        (mkLookup [("secrets", "{}"), ("check", "A")]) =
      parseInputs jsonParseStub regexParseStub
        (mkLookup [("secrets", "{}"), ("check", "A")]) :=
  parseInputs_deterministic jsonParseStub regexParseStub
    (mkLookup [("secrets", "{}"), ("check", "A")])
    (mkLookup [("secrets", "{}"), ("check", "A")]) (fun _ => rfl)

/-- Claim C9: on a `ParsedInputs` whose `check` list is empty,
`parseSecrets` returns vacuous success: `result = true` and all three
output sequences empty. -/
theorem parseSecrets_empty_check (inputs : ParsedInputs) (h : inputs.check = []) :
    parseSecrets inputs = some
      { result := true, keyExists := [], notEmpty := [], matchesPattern := [] } := by
  rw [parseSecrets_eq inputs, h]
  simp

/-- Claim C9, witness: vacuous success evaluated on a concrete
`ParsedInputs` with an empty `check`. -/
theorem parseSecrets_empty_check_witness :
    parseSecrets inputsEmptyEx = some
      { result := true, keyExists := [], notEmpty := [], matchesPattern := [] } :=
  parseSecrets_empty_check inputsEmptyEx rfl



/-- Reading a boolean input whose raw value is a whitespace-padded boolean
literal throws: the value is not trimmed before parsing. -/
theorem getInputBoolean_padded_err (g : GetInput) (key : String)
    (w₁ w₂ : String) (b : Bool)
    (hw₁ : ∀ c ∈ w₁.data, c.isWhitespace = true)
    (hw₂ : ∀ c ∈ w₂.data, c.isWhitespace = true)
    (hne : w₁ ++ w₂ ≠ "")
    (hval : g key = w₁ ++ ((if b then "true" else "false") ++ w₂)) :
    getInputBoolean g key false = Except.error (invalidBooleanMsg (g key) key) := by
  cases b with
  | true =>
    try simp only [reduceIte] at hval
    obtain ⟨hs1, hs2, hs3⟩ := padded_true_not_bool w₁ w₂ hw₁ hw₂ hne
    exact getInputBoolean_err g key false (by rw [hval]; exact hs1)
      (by rw [hval]; exact hs2) (by rw [hval]; exact hs3)
  | false =>
    try simp only [reduceIte] at hval
    obtain ⟨hs1, hs2, hs3⟩ := padded_false_not_bool w₁ w₂ hw₁ hw₂ hne
    exact getInputBoolean_err g key false (by rw [hval]; exact hs1)
      (by rw [hval]; exact hs2) (by rw [hval]; exact hs3)

/-- When `secrets` parses, `allowEmpty` reads and `pattern` parses, but the
`throwIfFail` read throws, `parseInputs` propagates that error. -/
theorem parseInputs_throwIfFail_error (jsonParse : String → Option Json)
    (regexParse : String → Option (String → Bool)) (g : GetInput)
    (m : List (String × String)) (e : String)
    (hsec : parseSecretsInput jsonParse g = Except.ok m)
    (hae : ∃ b, getInputBoolean g "allowEmpty" false = Except.ok b)
    (hpat : ∃ po, parsePattern regexParse (g "pattern") = Except.ok po)
    (htf : getInputBoolean g "throwIfFail" false = Except.error e) :
    parseInputs jsonParse regexParse g = Except.error e := by
  obtain ⟨ae, hae⟩ := hae
  obtain ⟨po, hpat⟩ := hpat
  simp [parseInputs, hsec, hae, hpat, htf]

/-- When `secrets` parses, `allowEmpty` and `throwIfFail` read and `pattern`
parses, but the `throwIfSuccess` read throws, `parseInputs` propagates that
error. -/
theorem parseInputs_throwIfSuccess_error (jsonParse : String → Option Json)
    (regexParse : String → Option (String → Bool)) (g : GetInput)
    (m : List (String × String)) (e : String)
    (hsec : parseSecretsInput jsonParse g = Except.ok m)
    (hae : ∃ b, getInputBoolean g "allowEmpty" false = Except.ok b)
    (hpat : ∃ po, parsePattern regexParse (g "pattern") = Except.ok po)
    (htf : ∃ b, getInputBoolean g "throwIfFail" false = Except.ok b)
    (hts : getInputBoolean g "throwIfSuccess" false = Except.error e) :
    parseInputs jsonParse regexParse g = Except.error e := by
  obtain ⟨ae, hae⟩ := hae
  obtain ⟨po, hpat⟩ := hpat
  obtain ⟨tf, htf⟩ := htf
  simp [parseInputs, hsec, hae, hpat, htf, hts]

/-- Claim C10: boolean inputs are not trimmed before parsing: a value for
`allowEmpty`, `throwIfFail` or `throwIfSuccess` that is `"true"` or
`"false"` surrounded by non-trivial whitespace makes `parseInputs` fail
with the invalid-boolean error for that key instead of accepting the value
or applying the default (for the later keys, provided the inputs the code
reads before them succeed). -/
theorem parseInputs_boolean_not_trimmed (jsonParse : String → Option Json)
    (regexParse : String → Option (String → Bool)) (g : GetInput)
    (m : List (String × String)) (w₁ w₂ : String) (b : Bool)
    (hw₁ : ∀ c ∈ w₁.data, c.isWhitespace = true)
    (hw₂ : ∀ c ∈ w₂.data, c.isWhitespace = true)
    (hne : w₁ ++ w₂ ≠ "")
    (hsec : parseSecretsInput jsonParse g = Except.ok m) :
    (g "allowEmpty" = w₁ ++ ((if b then "true" else "false") ++ w₂) →
      parseInputs jsonParse regexParse g =
        Except.error (invalidBooleanMsg (g "allowEmpty") "allowEmpty")) ∧
    ((∃ b2, getInputBoolean g "allowEmpty" false = Except.ok b2) →
      (∃ po, parsePattern regexParse (g "pattern") = Except.ok po) →
      g "throwIfFail" = w₁ ++ ((if b then "true" else "false") ++ w₂) →
      parseInputs jsonParse regexParse g =
        Except.error (invalidBooleanMsg (g "throwIfFail") "throwIfFail")) ∧
    ((∃ b2, getInputBoolean g "allowEmpty" false = Except.ok b2) →
      (∃ po, parsePattern regexParse (g "pattern") = Except.ok po) →
      (∃ b3, getInputBoolean g "throwIfFail" false = Except.ok b3) →
      g "throwIfSuccess" = w₁ ++ ((if b then "true" else "false") ++ w₂) →
      parseInputs jsonParse regexParse g =
        Except.error (invalidBooleanMsg (g "throwIfSuccess") "throwIfSuccess")) := by
  refine ⟨?_, ?_, ?_⟩
  · intro hval
    exact parseInputs_allowEmpty_error jsonParse regexParse g m _ hsec
      (getInputBoolean_padded_err g "allowEmpty" w₁ w₂ b hw₁ hw₂ hne hval)
  · intro hae hpat hval
    exact parseInputs_throwIfFail_error jsonParse regexParse g m _ hsec hae hpat
      (getInputBoolean_padded_err g "throwIfFail" w₁ w₂ b hw₁ hw₂ hne hval)
  · intro hae hpat htf hval
    exact parseInputs_throwIfSuccess_error jsonParse regexParse g m _ hsec hae hpat htf
      (getInputBoolean_padded_err g "throwIfSuccess" w₁ w₂ b hw₁ hw₂ hne hval)

/-- Claim C10, witness: the raw value `" true"` for each of `allowEmpty`,
`throwIfFail` and `throwIfSuccess` fails with the invalid-boolean error for
that key, messages spelled out literally. -/
theorem parseInputs_boolean_not_trimmed_witness :
    parseInputs jsonParseStub regexParseStub
        (mkLookup [("secrets", "{}"), ("check", "A"), ("allowEmpty", " true")]) =
      Except.error "Invalid input boolean value ' true' for input key 'allowEmpty'. Excepted: 'true' or 'false' (case insensitive)." ∧
    parseInputs jsonParseStub regexParseStub
        (mkLookup [("secrets", "{}"), ("check", "A"), ("throwIfFail", " true")]) =
      Except.error "Invalid input boolean value ' true' for input key 'throwIfFail'. Excepted: 'true' or 'false' (case insensitive)." ∧
    parseInputs jsonParseStub regexParseStub
        (mkLookup [("secrets", "{}"), ("check", "A"), ("throwIfSuccess", " true")]) =
      Except.error "Invalid input boolean value ' true' for input key 'throwIfSuccess'. Excepted: 'true' or 'false' (case insensitive)." :=
  ⟨(parseInputs_boolean_not_trimmed jsonParseStub regexParseStub
      (mkLookup [("secrets", "{}"), ("check", "A"), ("allowEmpty", " true")]) []
      " " "" true (by decide) (by decide) (by decide) rfl).1 rfl,
   (parseInputs_boolean_not_trimmed jsonParseStub regexParseStub
      (mkLookup [("secrets", "{}"), ("check", "A"), ("throwIfFail", " true")]) []
      " " "" true (by decide) (by decide) (by decide) rfl).2.1
     ⟨false, rfl⟩ ⟨none, rfl⟩ rfl,
   (parseInputs_boolean_not_trimmed jsonParseStub regexParseStub
      (mkLookup [("secrets", "{}"), ("check", "A"), ("throwIfSuccess", " true")]) []
      " " "" true (by decide) (by decide) (by decide) rfl).2.2
     ⟨false, rfl⟩ ⟨none, rfl⟩ ⟨false, rfl⟩ rfl⟩

end SecretChecker
